import Mathlib

/-! Verification development for the Evidence Reconciliation Engine of the
trade-surveillance repository.  The engine itself (the Python scripts
`email_order_validation_august_daily.py`,
`comprehensive_audio_trading_validation_august_daily.py`,
`add_required_columns_to_excel_august_daily.py`, ...) is not shipped in
this repository; only its documentation is.  Where the deciding code is
absent, the definitions below are modelled from the specification
(sections 3, 4.2, 4.3, 4.4, 4.5, 5, 7) and are marked as such.  The
order-identifier normalization and the final-report status logic are
transcribed from the Python code embedded verbatim in
`OMS_PROCESSING_BUG_FIX.md`.
-/

namespace TradeSurveillance

/-- Side of a trade: buy or sell. -/
inductive Side
  | buy
  | sell
deriving DecidableEq

/-- Execution status of an order: complete, cancelled or rejected. -/
inductive ExecStatus
  | complete
  | cancelled
  | rejected
deriving DecidableEq

/-- Modelled from the spec: one executed/cancelled/rejected trade
instruction from the order book (section 3).  The Python order records
are absent from the repository.  Timestamps are minutes since an epoch;
the calendar day is carried alongside. -/
structure Order where
  orderId : Nat
  clientId : String
  symbol : String
  side : Side
  quantity : Nat
  price : Option ℚ
  timestamp : Int
  day : Nat
  status : ExecStatus
deriving DecidableEq

/-- Modelled from the spec: a raw link between a call recording and a
client, with call start/end timestamps and a source mobile number
(section 3).  The Python call-info records are absent from the
repository. -/
structure CallCandidate where
  clientId : String
  day : Nat
  callStart : Int
  callEnd : Int
  mobile : String
deriving DecidableEq

/-- Requested quantity of an email instruction: a share count, or a
monetary value in lieu of quantity (section 3). -/
inductive QtySpec
  | shares (n : Nat)
  | worth (v : ℚ)
deriving DecidableEq

/-- Requested price of an email instruction: a numeric limit price, or
the sentinel meaning current market price (CMP, section 3). -/
inductive PriceSpec
  | cmp
  | limit (p : ℚ)
deriving DecidableEq

/-- Modelled from the spec: a single logical trading instruction
extracted from one or more related email messages (section 3).  The
Python extraction records are absent from the repository. -/
structure EmailInstruction where
  clientId : String
  symbol : String
  side : Side
  qty : QtySpec
  price : PriceSpec
  timestamp : Int
  day : Nat
deriving DecidableEq

/-- Kind of an attribute-level mismatch (section 3). -/
inductive DiscKind
  | price
  | quantity
  | symbol
  | timing
  | status
deriving DecidableEq

/-- Severity of a discrepancy (section 3). -/
inductive Severity
  | low
  | medium
  | high
  | critical
deriving DecidableEq

/-- An attribute-level mismatch between instructed and executed values,
with both values embedded verbatim in the note (section 3).  The
`informational` flag records the non-punitive tagging used for the CMP
sentinel (section 4.4). -/
structure Discrepancy where
  kind : DiscKind
  severity : Severity
  informational : Bool
  note : String
deriving DecidableEq

/-- Match-type tag of an email match candidate. -/
inductive MatchType
  | exact_match
  | near_match
  | split_execution
deriving DecidableEq

/-- Modelled from the spec: a potential pairing of one Order (or an
ordered group of Orders, for split execution) with one piece of
evidence, carrying a confidence percentage, a match-type tag and
discrepancy notes (section 3). -/
structure MatchCandidate where
  orders : List Order
  mtype : MatchType
  confidence : ℚ
  discrepancies : List Discrepancy
deriving DecidableEq

/-- Per-instruction outcome: a match candidate, or an explicit
unmatched disposition with a reason string (sections 4.3 and 7). -/
inductive InstructionResult
  | matched (c : MatchCandidate)
  | unmatched (reason : String)
deriving DecidableEq

/-- Modelled from the spec: the alias/normalization tables and
tolerance bands passed in as explicit configuration (section 9). -/
structure Config where
  aliases : List (String × String)
  priceTol : ℚ
  qtyTol : ℚ
  acceptThreshold : ℚ
deriving DecidableEq

/-- Default configuration: the alias pairs named in the documentation
and tolerance constants consistent with the worked examples. -/
def defaultConfig : Config :=
  { aliases := [("bluejethealthcare", "BLUEJET"),
                ("energyinfrastructuretrust", "ENERGYINF"),
                ("energyinvit", "ENERGYINF"),
                ("manappuramfinancelimited", "MANAPPURAM")],
    priceTol := 2,
    qtyTol := 2,
    acceptThreshold := 87 }

/-- Whether a client code already carries the institutional NEO marker
at its start. -/
def startsNeo (s : String) : Bool :=
  match s.data with
  | 'N' :: 'E' :: 'O' :: _ => true
  | _ => false

/-- Modelled from the spec: client code normalization (section 4.1).
If the input lacks the institutional marker but matches a known suffix
pattern (WM followed by digits, or all digits), prepend the canonical
marker; ambiguous or unrecognized codes pass through unchanged.  The
Python normalizer is absent from the repository. -/
def normClient (s : String) : String :=
  if startsNeo s then s
  else
    match s.data with
    | 'W' :: 'M' :: rest =>
      if rest.all Char.isDigit && not rest.isEmpty then "NEO" ++ s else s
    | l =>
      if l.all Char.isDigit && not l.isEmpty then "NEO" ++ s else s

/-- Lower-case a string and remove its spaces, the case-insensitive
whitespace-collapsed comparison key of section 4.1. -/
def lowerNoSpace (s : String) : String :=
  String.mk ((s.data.filter (fun c => not (c = ' '))).map Char.toLower)

/-- Modelled from the spec: symbol normalization against the maintained
alias table; unmapped symbols are compared case-insensitively with
whitespace collapsed (section 4.1).  The Python normalizer is absent
from the repository. -/
def normSym (cfg : Config) (s : String) : String :=
  match cfg.aliases.lookup (lowerNoSpace s) with
  | some v => v
  | none => lowerNoSpace s

/-- Client-code criterion of the rubric: 100 points for an exact match
post-normalization, else 0 (section 4.3). -/
def clientPts (i : EmailInstruction) (o : Order) : ℚ :=
  if normClient i.clientId = normClient o.clientId then 100 else 0

/-- Side criterion of the rubric: 15 points for a buy/sell match,
else 0 (section 4.3). -/
def sidePts (i : EmailInstruction) (o : Order) : ℚ :=
  if i.side = o.side then 15 else 0

/-- Symbol criterion of the rubric: 20 points for an exact canonical
match (section 4.3). -/
def symbolPts (cfg : Config) (i : EmailInstruction) (o : Order) : ℚ :=
  if normSym cfg i.symbol = normSym cfg o.symbol then 20 else 0

/-- Instructed quantity of an instruction, against a given executed
price: the share count when given directly, or the implied quantity
value/price for value-based instructions (section 4.3).  For a CMP
instruction the executed price is used to imply the quantity. -/
def impliedQty (i : EmailInstruction) (execPrice : Option ℚ) : Option ℚ :=
  match i.qty with
  | QtySpec.shares n => some (n : ℚ)
  | QtySpec.worth v =>
    match i.price with
    | PriceSpec.limit p => if p = 0 then none else some (v / p)
    | PriceSpec.cmp =>
      match execPrice with
      | some p => if p = 0 then none else some (v / p)
      | none => none

/-- Quantity criterion of the rubric: 25 points for an exact match of
the instructed (or implied) quantity (section 4.3). -/
def quantityPts (i : EmailInstruction) (o : Order) : ℚ :=
  match impliedQty i o.price with
  | some q => if q = (o.quantity : ℚ) then 25 else 0
  | none => 0

/-- Price criterion of the rubric: 20 points for an exact numeric
match; the CMP sentinel matches any executed price (section 4.3). -/
def pricePts (i : EmailInstruction) (o : Order) : ℚ :=
  match i.price with
  | PriceSpec.cmp => 20
  | PriceSpec.limit p => if o.price = some p then 20 else 0

/-- Minutes between the instruction timestamp and the order
timestamp. -/
def timeDelta (i : EmailInstruction) (o : Order) : Nat :=
  (o.timestamp - i.timestamp).natAbs

/-- Time-proximity points as the documentation words them: full points
within 2 hours of the instruction timestamp, decaying linearly to 0
outside the window (section 4.3).  In the reconciled rubric (see the
development of claim C1) these points serve the tie-break, not the
additive raw score. -/
def timePts (d : Nat) : ℚ :=
  if d ≤ 120 then 20
  else if 240 ≤ d then 0
  else ((240 - d : Nat) : ℚ) * 20 / 120

/-- Modelled from the spec: the additive raw score of an instruction
against an order.  Client code and side are mandatory: the score is 0
when either fails (section 4.3).  The five additive criteria total 180
raw points, consistent with every worked percentage of the
documentation (100 percent perfect, 88.9 percent for a price mismatch,
63.9 percent for client and side only); the time-proximity criterion
participates in the tie-break instead.  The Python scorer is absent
from the repository. -/
def rawScore (cfg : Config) (i : EmailInstruction) (o : Order) : ℚ :=
  if clientPts i o = 0 ∨ sidePts i o = 0 then 0
  else clientPts i o + sidePts i o + symbolPts cfg i o + quantityPts i o + pricePts i o

/-- Confidence percentage of an instruction against an order: raw
score over 180, times 100 (section 4.3). -/
def confidence (cfg : Config) (i : EmailInstruction) (o : Order) : ℚ :=
  rawScore cfg i o * 100 / 180

/-- Render an optional executed price for a discrepancy note. -/
def priceStr (o : Order) : String :=
  match o.price with
  | some q => toString q
  | none => "market"

/-- The informational note recorded whenever a CMP instruction is
matched: the sentinel is never silently accepted (section 4.4). -/
def cmpNote (o : Order) : Discrepancy :=
  { kind := DiscKind.price, severity := Severity.low, informational := true,
    note := "Price Note - Instruction: CMP, Order: " ++ priceStr o }

/-- Modelled from the spec: price comparison of the Discrepancy
Analyzer (section 4.4).  A CMP instruction always records exactly one
informational note; a limit price beyond the currency-unit tolerance
records a punitive mismatch with both values verbatim.  The Python
analyzer is absent from the repository. -/
def priceDiscs (cfg : Config) (i : EmailInstruction) (o : Order) : List Discrepancy :=
  match i.price with
  | PriceSpec.cmp => [cmpNote o]
  | PriceSpec.limit p =>
    match o.price with
    | some q =>
      if abs (q - p) ≤ cfg.priceTol then []
      else [{ kind := DiscKind.price, severity := Severity.medium, informational := false,
              note := "Price Mismatch - Instruction: " ++ toString p ++ ", Order: " ++ toString q }]
    | none =>
      [{ kind := DiscKind.price, severity := Severity.medium, informational := false,
         note := "Price Mismatch - Instruction: " ++ toString p ++ ", Order: market" }]

/-- Modelled from the spec: quantity comparison of the Discrepancy
Analyzer (section 4.4).  A difference beyond tolerance is recorded;
when the two quantities differ by more than a factor of 100 the
severity is critical (likely data-entry error). -/
def qtyDiscs (cfg : Config) (i : EmailInstruction) (o : Order) : List Discrepancy :=
  match impliedQty i o.price with
  | none => []
  | some q =>
    if abs (q - (o.quantity : ℚ)) ≤ cfg.qtyTol then []
    else if 100 * (o.quantity : ℚ) < q ∨ 100 * q < (o.quantity : ℚ) then
      [{ kind := DiscKind.quantity, severity := Severity.critical, informational := false,
         note := "Quantity Mismatch - Instruction: " ++ toString q ++ ", Order: " ++ toString o.quantity }]
    else
      [{ kind := DiscKind.quantity, severity := Severity.medium, informational := false,
         note := "Quantity Mismatch - Instruction: " ++ toString q ++ ", Order: " ++ toString o.quantity }]

/-- Modelled from the spec: symbol comparison of the Discrepancy
Analyzer; canonical symbols differing is always high severity
(section 4.4). -/
def symDiscs (cfg : Config) (i : EmailInstruction) (o : Order) : List Discrepancy :=
  if normSym cfg i.symbol = normSym cfg o.symbol then []
  else [{ kind := DiscKind.symbol, severity := Severity.high, informational := false,
          note := "Symbol Mismatch - Instruction: " ++ i.symbol ++ ", Order: " ++ o.symbol }]

/-- Modelled from the spec: status comparison of the Discrepancy
Analyzer; a cancelled or rejected order despite clear evidence is
flagged for review (section 4.4). -/
def statusDiscs (o : Order) : List Discrepancy :=
  if o.status = ExecStatus.complete then []
  else [{ kind := DiscKind.status, severity := Severity.medium, informational := false,
          note := "Order not completed despite instruction - flagged for review" }]

/-- All discrepancies of an instruction against an order
(section 4.4). -/
def discrepanciesFor (cfg : Config) (i : EmailInstruction) (o : Order) : List Discrepancy :=
  priceDiscs cfg i o ++ qtyDiscs cfg i o ++ symDiscs cfg i o ++ statusDiscs o

/-- The match candidate emitted for a single-order email match. -/
def singleCandidate (cfg : Config) (i : EmailInstruction) (o : Order) : MatchCandidate :=
  { orders := [o],
    mtype := if confidence cfg i o = 100 then MatchType.exact_match else MatchType.near_match,
    confidence := confidence cfg i o,
    discrepancies := discrepanciesFor cfg i o }

/-- Modelled from the spec: the deterministic tie-break between two
orders for one instruction: highest score, then closest time
proximity, then lowest order identifier (section 4.3). -/
def pickBetter (cfg : Config) (i : EmailInstruction) (a b : Order) : Order :=
  if confidence cfg i b > confidence cfg i a then b
  else if confidence cfg i a > confidence cfg i b then a
  else if timeDelta i b < timeDelta i a then b
  else if timeDelta i a < timeDelta i b then a
  else if a.orderId ≤ b.orderId then a
  else b

/-- The best order for an instruction among a list, under the
deterministic tie-break. -/
def bestOrder (cfg : Config) (i : EmailInstruction) : List Order → Option Order
  | [] => none
  | o :: rest => some (rest.foldl (pickBetter cfg i) o)

/-- Total executed quantity of a group of orders. -/
def totQty (g : List Order) : Nat :=
  g.foldl (fun a o => a + o.quantity) 0

/-- Sum of quantity-times-price over a group of orders, an absent
price counting as zero. -/
def sumPx (g : List Order) : ℚ :=
  g.foldl (fun a o => a + (o.quantity : ℚ) * o.price.getD 0) 0

/-- Quantity-weighted average price of a group of orders. -/
def wavgPrice (g : List Order) : ℚ :=
  if totQty g = 0 then 0 else sumPx g / (totQty g : ℚ)

/-- Modelled from the spec: the candidate group for split execution:
the same-client, same-day, same-canonical-symbol, same-side orders
(section 4.3). -/
def splitGroup (cfg : Config) (i : EmailInstruction) (orders : List Order) : List Order :=
  orders.filter (fun o =>
    decide (normClient i.clientId = normClient o.clientId) &&
    decide (i.day = o.day) &&
    decide (i.side = o.side) &&
    decide (normSym cfg i.symbol = normSym cfg o.symbol))

/-- Instructed (or implied) quantity targeted by a split-execution
group; a value-based instruction with CMP price implies the quantity
from the weighted average execution price. -/
def splitQtyTarget (i : EmailInstruction) (g : List Order) : Option ℚ :=
  match i.qty with
  | QtySpec.shares n => some (n : ℚ)
  | QtySpec.worth v =>
    match i.price with
    | PriceSpec.limit p => if p = 0 then none else some (v / p)
    | PriceSpec.cmp => if wavgPrice g = 0 then none else some (v / wavgPrice g)

/-- Modelled from the spec: whether a group qualifies as a split
execution: at least two orders, total quantity within a small absolute
tolerance of the instructed (or implied) quantity, and the
quantity-weighted average price within a small tolerance of the
instructed price (a CMP instruction matches any average price)
(section 4.3). -/
def splitCheckB (cfg : Config) (i : EmailInstruction) (g : List Order) : Bool :=
  decide (2 ≤ g.length) &&
  (match splitQtyTarget i g with
   | some q => decide (abs ((totQty g : ℚ) - q) ≤ cfg.qtyTol)
   | none => false) &&
  (match i.price with
   | PriceSpec.cmp => true
   | PriceSpec.limit p => decide (abs (wavgPrice g - p) ≤ cfg.priceTol))

/-- The synthetic order carrying the aggregate quantity and the
quantity-weighted average price of a group, used to substitute the
aggregates into the rubric (section 4.3). -/
def aggOrder (g : List Order) : Option Order :=
  match g with
  | [] => none
  | o :: _ => some { o with quantity := totQty g, price := some (wavgPrice g) }

/-- Confidence of a split-execution group: the rubric applied to the
aggregate quantity and price (section 4.3). -/
def aggConfidence (cfg : Config) (i : EmailInstruction) (g : List Order) : ℚ :=
  match aggOrder g with
  | some o => confidence cfg i o
  | none => 0

/-- The single match candidate emitted for a split-execution group:
type split_execution, covering the whole group, with confidence from
the aggregate rubric (section 4.3). -/
def splitCandidate (cfg : Config) (i : EmailInstruction) (g : List Order) : MatchCandidate :=
  { orders := g,
    mtype := MatchType.split_execution,
    confidence := aggConfidence cfg i g,
    discrepancies := match aggOrder g with
      | some o => discrepanciesFor cfg i o
      | none => [] }

/-- Explicit reason attached to an unmatched instruction, supporting
the audit trail of section 8: never the empty string. -/
def unmatchedReason (i : EmailInstruction) (orders : List Order) : String :=
  if orders.filter (fun o => decide (normClient i.clientId = normClient o.clientId)) = [] then
    "UNMATCHED - client code not found in order book"
  else
    "UNMATCHED - no order met the mandatory criteria and rubric threshold"

/-- Split-execution stage of the email matcher: emit one
split-execution candidate when the group qualifies, otherwise record
the instruction as unmatched with an explicit reason (sections 4.3
and 7). -/
def emailSplitStage (cfg : Config) (i : EmailInstruction) (orders : List Order) : InstructionResult :=
  if splitCheckB cfg i (splitGroup cfg i orders) then
    InstructionResult.matched (splitCandidate cfg i (splitGroup cfg i orders))
  else
    InstructionResult.unmatched (unmatchedReason i orders)

/-- Modelled from the spec: the Email Instruction Matcher for one
instruction: score every same-day order, accept the best one when it
reaches the acceptance threshold, otherwise attempt split-execution
detection, otherwise record an explicit unmatched disposition
(sections 4.3 and 7).  The Python matcher is absent from the
repository. -/
def emailMatchInstruction (cfg : Config) (i : EmailInstruction) (orders : List Order) : InstructionResult :=
  match bestOrder cfg i (orders.filter (fun o => decide (i.day = o.day))) with
  | some o =>
    if cfg.acceptThreshold ≤ confidence cfg i o then
      InstructionResult.matched (singleCandidate cfg i o)
    else emailSplitStage cfg i orders
  | none => emailSplitStage cfg i orders

/-- Width of the tight audio matching window, in minutes
(section 4.2). -/
def tightWindowMinutes : Int := 5

/-- High confidence baseline of a tight-window audio match.  Modelled
from the spec: the exact numeric baseline is unspecified (a high
baseline, treated as near-certain); only its ordering above the
fallback baseline is relied upon. -/
def tightConfidenceBaseline : ℚ := 90

/-- Lower confidence baseline of a daily-fallback audio match.
Modelled from the spec: the exact numeric baseline is unspecified;
only its ordering below the tight baseline is relied upon. -/
def fallbackConfidenceBaseline : ℚ := 60

/-- Match-status tag of an audio match (section 4.2 and the process
documentation). -/
inductive AudioTag
  | matched_in_time_range
  | matched_daily_fallback
deriving DecidableEq

/-- An audio match candidate: the call, the stage tag and the
confidence baseline. -/
structure AudioCandidate where
  call : CallCandidate
  tag : AudioTag
  confidence : ℚ
deriving DecidableEq

/-- Whether a call belongs to the same client and the same calendar
day as an order. -/
def sameClientDayB (c : CallCandidate) (o : Order) : Bool :=
  decide (c.clientId = o.clientId) && decide (c.day = o.day)

/-- Whether the call interval falls within plus or minus five minutes
of the order timestamp (section 4.2). -/
def tightB (c : CallCandidate) (o : Order) : Bool :=
  decide (o.timestamp - tightWindowMinutes ≤ c.callStart) &&
  decide (c.callEnd ≤ o.timestamp + tightWindowMinutes)

/-- Modelled from the spec: the Audio Candidate Matcher for one order:
stage 1 emits a tight-window candidate when some call of the client
lies within the window; stage 2 emits a daily-fallback candidate from
any same-client same-day call only when stage 1 produced nothing;
otherwise no audio candidate (section 4.2).  The Python matcher is
absent from the repository. -/
def audioMatchOrder (calls : List CallCandidate) (o : Order) : Option AudioCandidate :=
  match calls.filter (fun c => sameClientDayB c o && tightB c o) with
  | c :: _ => some { call := c, tag := AudioTag.matched_in_time_range, confidence := tightConfidenceBaseline }
  | [] =>
    match calls.filter (fun c => sameClientDayB c o) with
    | c :: _ => some { call := c, tag := AudioTag.matched_daily_fallback, confidence := fallbackConfidenceBaseline }
    | [] => none

/-- The evidence retained per channel for one order: a confidence and
the discrepancy notes of the winning candidate. -/
structure BestCand where
  confidence : ℚ
  discrepancies : List Discrepancy
deriving DecidableEq

/-- The chosen channel of an order after aggregation. -/
inductive Chosen
  | audio (c : BestCand)
  | email (c : BestCand)
  | noEvidence
deriving DecidableEq

/-- Modelled from the spec: the precedence rule of the Reconciliation
Aggregator: with both channels present prefer the higher confidence,
and on a tie prefer the email evidence (section 4.5).  The Python
aggregator is absent from the repository. -/
def aggregate (a : Option BestCand) (e : Option BestCand) : Chosen :=
  match a, e with
  | none, none => Chosen.noEvidence
  | some x, none => Chosen.audio x
  | none, some y => Chosen.email y
  | some x, some y => if x.confidence > y.confidence then Chosen.audio x else Chosen.email y

/-- The evidence carried by a chosen channel, if any. -/
def evidenceOf : Chosen → Option BestCand
  | Chosen.audio c => some c
  | Chosen.email c => some c
  | Chosen.noEvidence => none

/-- Whether the evidence carries a critical-severity discrepancy. -/
def hasCriticalB (c : BestCand) : Bool :=
  c.discrepancies.any (fun d => decide (d.severity = Severity.critical))

/-- Modelled from the spec: the highlighting policy: an order requires
audit exactly when it executed successfully and either has no evidence
from either channel or has evidence carrying a critical-severity
discrepancy; cancelled and rejected orders are never highlighted
(section 4.5).  The Python report generator is absent from the
repository. -/
def requiresAudit (o : Order) (ch : Chosen) : Bool :=
  decide (o.status = ExecStatus.complete) &&
  (match evidenceOf ch with
   | none => true
   | some c => hasCriticalB c)

/-- The email-channel candidate an instruction contributes to an
order: the instruction's match, if that match covers the order. -/
def candFor (cfg : Config) (orders : List Order) (o : Order) (i : EmailInstruction) : Option BestCand :=
  match emailMatchInstruction cfg i orders with
  | InstructionResult.matched c =>
    if o ∈ c.orders then some { confidence := c.confidence, discrepancies := c.discrepancies }
    else none
  | InstructionResult.unmatched _ => none

/-- Keep the better of two optional candidates, preferring the first
on a tie (deterministic). -/
def mergeBest : Option BestCand → Option BestCand → Option BestCand
  | none, y => y
  | some x, none => some x
  | some x, some y => if y.confidence > x.confidence then some y else some x

/-- Best email evidence for one order across all instructions. -/
def bestEmailForOrder (cfg : Config) (instrs : List EmailInstruction) (orders : List Order) (o : Order) : Option BestCand :=
  instrs.foldl (fun acc i => mergeBest acc (candFor cfg orders o i)) none

/-- The audio evidence reduced to the per-order form (audio evidence
carries no instructed values, hence no discrepancy notes). -/
def audioToBest (a : AudioCandidate) : BestCand :=
  { confidence := a.confidence, discrepancies := [] }

/-- Modelled from the spec: the final per-order output record
(section 3). -/
structure ReconciliationRecord where
  orderId : Nat
  chosen : Chosen
  flagged : Bool
deriving DecidableEq

/-- The record produced for one order: channel evidence collected,
aggregated, and the audit flag applied (sections 4.5 and 6). -/
def recordFor (cfg : Config) (calls : List CallCandidate) (instrs : List EmailInstruction)
    (orders : List Order) (o : Order) : ReconciliationRecord :=
  let a := (audioMatchOrder calls o).map audioToBest
  let e := bestEmailForOrder cfg instrs orders o
  let ch := aggregate a e
  { orderId := o.orderId, chosen := ch, flagged := requiresAudit o ch }

/-- The structured inputs of one engine run (section 6). -/
structure EngineInput where
  orders : List Order
  calls : List CallCandidate
  instrs : List EmailInstruction
deriving DecidableEq

/-- Modelled from the spec: the Evidence Reconciliation Engine as a
pure function from structured inputs to one ReconciliationRecord per
order (sections 2, 5 and 6).  The Python orchestration is absent from
the repository. -/
def runEngine (cfg : Config) (inp : EngineInput) : List ReconciliationRecord :=
  inp.orders.map (recordFor cfg inp.calls inp.instrs inp.orders)

/-- Numeric value of a digit list (most significant first). -/
def digitsVal (l : List Char) : Nat :=
  l.foldl (fun a c => a * 10 + (c.toNat - 48)) 0

/-- The ASCII whitespace characters float() strips around its
argument. -/
def isPySpace (c : Char) : Bool :=
  c = ' ' || c = '\t' || c = '\n' || c = '\r' || c = '\x0b' || c = '\x0c'

/-- Strip leading and trailing whitespace, as float() does on a
string argument. -/
def stripSpaces (l : List Char) : List Char :=
  ((l.dropWhile isPySpace).reverse.dropWhile isPySpace).reverse

/-- Continue a digit group already begun by a digit, accepting
single underscores between digits (PEP 515, as float() does): an
underscore not flanked by digits ends the group before itself. -/
def digitsTailU : List Char → List Char × List Char
  | [] => ([], [])
  | '_' :: d :: rest2 =>
    if d.isDigit then
      match digitsTailU rest2 with
      | (ds, r) => (d :: ds, r)
    else ([], '_' :: d :: rest2)
  | '_' :: [] => ([], ['_'])
  | c :: rest =>
    if c.isDigit then
      match digitsTailU rest with
      | (ds, r) => (c :: ds, r)
    else ([], c :: rest)

/-- A digit group: a leading digit followed by digits with optional
underscores between them; fails when no leading digit is present. -/
def groupU (l : List Char) : Option (List Char × List Char) :=
  match l with
  | c :: rest =>
    if c.isDigit then
      match digitsTailU rest with
      | (ds, r) => some (c :: ds, r)
    else none
  | [] => none

/-- Bit length of a natural number (0 for 0), computed with explicit
fuel so that it reduces inside the kernel. -/
def bitLenAux : Nat → Nat → Nat
  | 0, _ => 0
  | fuel + 1, n => if n = 0 then 0 else bitLenAux fuel (n / 2) + 1

/-- Bit length of a natural number: the least k with n less than 2^k. -/
def bitLen (n : Nat) : Nat :=
  bitLenAux n n

/-- Binary exponentiation with explicit fuel, so that powers with
large exponents reduce inside the evaluator. -/
def powAux (b : Nat) : Nat → Nat → Nat
  | 0, _ => 1
  | fuel + 1, k =>
    if k = 0 then 1
    else
      let h := powAux b fuel (k / 2)
      if k % 2 = 0 then h * h else b * (h * h)

/-- Power of two by binary exponentiation. -/
def pow2 (k : Nat) : Nat := powAux 2 k k

/-- Power of ten by binary exponentiation. -/
def pow10 (k : Nat) : Nat := powAux 10 k k

/-- Whether the positive rational N over M is at least 2 to the j. -/
def gePow2 (N M : Nat) (j : Int) : Bool :=
  if 0 ≤ j then M * pow2 j.toNat ≤ N else M ≤ N * pow2 (-j).toNat

/-- Floor of the base-2 logarithm of the positive rational N over M,
via bit lengths and one correcting comparison. -/
def floorLog2Q (N M : Nat) : Int :=
  let k : Int := (bitLen N : Int) - (bitLen M : Int)
  if gePow2 N M k then k else k - 1

/-- Round the nonnegative rational A over B to the nearest natural
number, ties to even: the rounding IEEE-754 arithmetic performs. -/
def roundHalfEven (A B : Nat) : Nat :=
  let f := A / B
  let r := A % B
  if 2 * r < B then f
  else if B < 2 * r then f + 1
  else if f % 2 = 0 then f else f + 1

/-- A CPython float value as produced by float() on a string: a
finite binary64 value sign times m times 2 to the e, an infinity, or
NaN. -/
inductive PyFloat
  | finite (neg : Bool) (m : Nat) (e : Int)
  | inf (neg : Bool)
  | nan
deriving DecidableEq

/-- Round the exact decimal value sign times D times 10 to the t to
the nearest IEEE-754 binary64 (ties to even, gradual underflow,
overflow to infinity), the conversion strtod performs inside
float(). -/
def mkFinite (neg : Bool) (D : Nat) (t : Int) : PyFloat :=
  if D = 0 then PyFloat.finite neg 0 0
  else
    let N := if 0 ≤ t then D * pow10 t.toNat else D
    let M := if 0 ≤ t then 1 else pow10 (-t).toNat
    let e2 := floorLog2Q N M
    let s : Int := max (e2 - 52) (-1074)
    let A := if 0 ≤ s then N else N * pow2 (-s).toNat
    let B := if 0 ≤ s then M * pow2 s.toNat else M
    let m := roundHalfEven A B
    let p : Nat × Int := if pow2 53 ≤ m then (m / 2, s + 1) else (m, s)
    if 971 < p.2 then PyFloat.inf neg else PyFloat.finite neg p.1 p.2

/-- Model of CPython float() on a string, as called by
normalize_order_id_for_preservation in OMS_PROCESSING_BUG_FIX.md:
ASCII whitespace is stripped, an optional sign is read, the literals
inf, infinity and nan are recognized case-insensitively, and a
decimal literal (digits with PEP 515 underscores, an optional
fraction, an optional signed exponent, at least one mantissa digit)
is rounded to the nearest binary64, overflowing literals such as
1e400 giving infinity.  Non-ASCII digits and non-ASCII spaces, which
CPython also accepts, are outside the model. -/
def pyFloat (s : String) : Option PyFloat :=
  let l := stripSpaces s.data
  let sp : Bool × List Char :=
    match l with
    | '+' :: r => (false, r)
    | '-' :: r => (true, r)
    | r => (false, r)
  let neg := sp.1
  let body := sp.2
  let low := body.map Char.toLower
  if low = ['i', 'n', 'f'] || low = ['i', 'n', 'f', 'i', 'n', 'i', 't', 'y'] then
    some (PyFloat.inf neg)
  else if low = ['n', 'a', 'n'] then some PyFloat.nan
  else
    let ipP : List Char × List Char :=
      match groupU body with
      | some p => p
      | none => ([], body)
    let ip := ipP.1
    let afterIp := ipP.2
    let frP : List Char × List Char :=
      match afterIp with
      | '.' :: r =>
        match groupU r with
        | some p => p
        | none => ([], r)
      | r => ([], r)
    let hasDot : Bool :=
      match afterIp with
      | '.' :: _ => true
      | _ => false
    let frac := if hasDot then frP.1 else []
    let afterFrac := if hasDot then frP.2 else afterIp
    if ip.isEmpty && frac.isEmpty then none
    else
      let D := digitsVal (ip ++ frac)
      match afterFrac with
      | [] => some (mkFinite neg D (-(frac.length : Int)))
      | e :: r =>
        if e = 'e' || e = 'E' then
          let es : Bool × List Char :=
            match r with
            | '+' :: r2 => (false, r2)
            | '-' :: r2 => (true, r2)
            | r2 => (false, r2)
          match groupU es.2 with
          | some p =>
            if p.2.isEmpty then
              some (mkFinite neg D
                ((if es.1 then -(digitsVal p.1 : Int) else (digitsVal p.1 : Int))
                  - (frac.length : Int)))
            else none
          | none => none
        else none

/-- Truncation toward zero of the magnitude m times 2 to the e of a
finite float, the behaviour of int() on a nonnegative float. -/
def pyTruncNat (m : Nat) (e : Int) : Nat :=
  if 0 ≤ e then m * 2 ^ e.toNat else m / 2 ^ (-e).toNat

/-- The exact rational magnitude of a finite float m times 2 to the
e. -/
def finiteMag (m : Nat) (e : Int) : ℚ :=
  (m : ℚ) * (2 : ℚ) ^ e

/-- Whether a string ends in the two characters dot zero, the
s.endswith test of the Python fallback branch. -/
def strEndsWithDotZero (s : String) : Bool :=
  match s.data.reverse with
  | '0' :: '.' :: _ => true
  | _ => false

/-- Drop the last two characters of a string, the s slice up to minus
two of the Python fallback branch. -/
def stripDotZero (s : String) : String :=
  String.mk ((s.data.reverse.drop 2).reverse)

/-- Transcribed from normalize_order_id_for_preservation in
OMS_PROCESSING_BUG_FIX.md: str(int(float(val))), with except
(ValueError, TypeError) returning the string unchanged unless it ends
in dot zero, in which case the last two characters are stripped.  A
float() parse failure and int() on NaN raise ValueError and are
caught; int() on an infinite float raises OverflowError, which the
except clause does not catch, modelled as none (the exception
propagates).  The pd.isna branch concerns missing cells, which
section 7 rejects before matching; the model covers actual strings. -/
def normalize_order_id_for_preservation (val : String) : Option String :=
  match pyFloat val with
  | some (PyFloat.finite neg m e) =>
    some (toString (if neg then -(pyTruncNat m e : Int) else (pyTruncNat m e : Int)))
  | some (PyFloat.inf _) => none
  | some PyFloat.nan =>
    some (if strEndsWithDotZero val then stripDotZero val else val)
  | none =>
    some (if strEndsWithDotZero val then stripDotZero val else val)

/-- Transcribed from normalize_order_id_for_restore in
OMS_PROCESSING_BUG_FIX.md; its body is identical to the preservation
variant. -/
def normalize_order_id_for_restore (val : String) : Option String :=
  match pyFloat val with
  | some (PyFloat.finite neg m e) =>
    some (toString (if neg then -(pyTruncNat m e : Int) else (pyTruncNat m e : Int)))
  | some (PyFloat.inf _) => none
  | some PyFloat.nan =>
    some (if strEndsWithDotZero val then stripDotZero val else val)
  | none =>
    some (if strEndsWithDotZero val then stripDotZero val else val)

/-- One row of the analysis table read by Step 9, reduced to the two
columns the fixed code manipulates: the order identifier and the
Email-Order Match Status. -/
structure AnalysisRow where
  orderId : String
  emailStatus : String
deriving DecidableEq

/-- Transcribed from the fixed code of
add_required_columns_to_excel_august_daily.py in
OMS_PROCESSING_BUG_FIX.md: before defaults are set, the normalized
order identifiers of the rows already carrying OMS_MATCH are
collected.  The getD arm models a completing run: an identifier whose
normalization raises the uncaught OverflowError aborts Step 9 in the
original and produces no output frame at all, so it never fires on a
run that produces rows. -/
def preservedOmsIds (rows : List AnalysisRow) : List String :=
  (rows.filter (fun r => r.emailStatus == "OMS_MATCH")).map
    (fun r => (normalize_order_id_for_preservation r.orderId).getD r.orderId)

/-- Transcribed from the fixed code: every row's status is initialized
to the No Email Match default. -/
def applyDefaults (rows : List AnalysisRow) : List AnalysisRow :=
  rows.map (fun r => { r with emailStatus := "No Email Match" })

/-- Transcribed from the fixed code: the existing OMS matches mapping
is applied over the normalized order identifier, rows without an entry
keeping their current status (the fillna).  The getD arm models a
completing run, as in preservedOmsIds. -/
def applyOmsMatches (m : String → Option String) (rows : List AnalysisRow) : List AnalysisRow :=
  rows.map (fun r =>
    match m ((normalize_order_id_for_restore r.orderId).getD r.orderId) with
    | some v => { r with emailStatus := v }
    | none => r)

/-- Transcribed from the fixed code: rows whose normalized order
identifier was collected before the defaults get their OMS_MATCH
status restored.  The getD arm models a completing run, as in
preservedOmsIds. -/
def restoreOms (ids : List String) (rows : List AnalysisRow) : List AnalysisRow :=
  rows.map (fun r =>
    if (normalize_order_id_for_restore r.orderId).getD r.orderId ∈ ids then
      { r with emailStatus := "OMS_MATCH" }
    else r)

/-- Transcribed from the fixed code of Step 9: collect the OMS_MATCH
rows of the source, set defaults, apply the OMS matches mapping, then
restore the collected statuses. -/
def addRequiredColumnsStatus (m : String → Option String) (rows : List AnalysisRow) : List AnalysisRow :=
  restoreOms (preservedOmsIds rows) (applyOmsMatches m (applyDefaults rows))

/-- Fully matching instruction and order, the perfect-match worked
example of the documentation (client NEOC4, YASHO, 670 at 1850,
sell). -/
def c1xInstr : EmailInstruction :=
  { clientId := "NEOC4", symbol := "YASHO", side := Side.sell,
    qty := QtySpec.shares 670, price := PriceSpec.limit 1850, timestamp := 600, day := 1 }

/-- The order executing the c1xInstr instruction exactly. -/
def c1xOrder : Order :=
  { orderId := 1, clientId := "NEOC4", symbol := "YASHO", side := Side.sell,
    quantity := 670, price := some 1850, timestamp := 630, day := 1,
    status := ExecStatus.complete }

/-- Order for the tight-window audio example: timestamp 1000. -/
def c2Order : Order :=
  { orderId := 2, clientId := "NEO1", symbol := "ABC", side := Side.buy,
    quantity := 10, price := some 5, timestamp := 1000, day := 3,
    status := ExecStatus.complete }

/-- Call whose interval 998 to 1002 lies within five minutes of the
c2Order timestamp. -/
def c2CallTight : CallCandidate :=
  { clientId := "NEO1", day := 3, callStart := 998, callEnd := 1002, mobile := "9876500000" }

/-- Afternoon order, far from any call of the day. -/
def c2OrderLate : Order :=
  { orderId := 3, clientId := "NEO1", symbol := "ABC", side := Side.buy,
    quantity := 10, price := some 5, timestamp := 1400, day := 3,
    status := ExecStatus.complete }

/-- Morning call of the same client and day, outside the tight window
of c2OrderLate. -/
def c2CallMorning : CallCandidate :=
  { clientId := "NEO1", day := 3, callStart := 600, callEnd := 610, mobile := "9876500000" }

/-- CMP instruction of the worked example of section 8. -/
def c3Instr : EmailInstruction :=
  { clientId := "NEOWM00629", symbol := "KRT", side := Side.sell,
    qty := QtySpec.shares 1000000, price := PriceSpec.cmp, timestamp := 600, day := 2 }

/-- Order executed at 1850 against the CMP instruction. -/
def c3Order : Order :=
  { orderId := 5, clientId := "NEOWM00629", symbol := "KRT", side := Side.sell,
    quantity := 1000000, price := some 1850, timestamp := 640, day := 2,
    status := ExecStatus.complete }

/-- A cancelled order with no evidence, for the highlighting rule. -/
def c4Order : Order :=
  { orderId := 7, clientId := "NEOC5", symbol := "YASHO", side := Side.sell,
    quantity := 10, price := some 1, timestamp := 0, day := 1,
    status := ExecStatus.cancelled }

/-- Split-execution instruction of the worked example of section 8:
quantity 100000 at price 500. -/
def c6Instr : EmailInstruction :=
  { clientId := "NEOC1", symbol := "RELIANCE", side := Side.buy,
    qty := QtySpec.shares 100000, price := PriceSpec.limit 500, timestamp := 100, day := 4 }

/-- First leg of the split execution: 40000 at 500. -/
def c6Order1 : Order :=
  { orderId := 11, clientId := "NEOC1", symbol := "RELIANCE", side := Side.buy,
    quantity := 40000, price := some 500, timestamp := 100, day := 4,
    status := ExecStatus.complete }

/-- Second leg of the split execution: 60000 at 500. -/
def c6Order2 : Order :=
  { orderId := 12, clientId := "NEOC1", symbol := "RELIANCE", side := Side.buy,
    quantity := 60000, price := some 500, timestamp := 110, day := 4,
    status := ExecStatus.complete }

/-- The synthetic aggregate order of the split-execution example:
total quantity 100000 at weighted average price 500. -/
def c6Agg : Order :=
  { orderId := 11, clientId := "NEOC1", symbol := "RELIANCE", side := Side.buy,
    quantity := 100000, price := some 500, timestamp := 100, day := 4,
    status := ExecStatus.complete }

/-- Instruction whose client code matches no order of the book. -/
def c7Instr : EmailInstruction :=
  { clientId := "NEOC9", symbol := "XYZ", side := Side.buy,
    qty := QtySpec.shares 10, price := PriceSpec.limit 5, timestamp := 0, day := 1 }

/-- Order of a different client than c7Instr. -/
def c7Order : Order :=
  { orderId := 21, clientId := "NEOC8", symbol := "XYZ", side := Side.buy,
    quantity := 10, price := some 5, timestamp := 0, day := 1,
    status := ExecStatus.complete }

/-- A small order book for the determinism witness. -/
def c9Order : Order :=
  { orderId := 31, clientId := "NEOC2", symbol := "TCS", side := Side.buy,
    quantity := 5, price := some 10, timestamp := 50, day := 9,
    status := ExecStatus.complete }

/-- Concrete engine input for the determinism witness. -/
def c9Input : EngineInput := { orders := [c9Order], calls := [], instrs := [] }

/-- A source row already carrying the OMS_MATCH status, its order
identifier in scientific notation. -/
def c10Row : AnalysisRow := { orderId := "2.509e13", emailStatus := "OMS_MATCH" }

theorem clientPts_le (i : EmailInstruction) (o : Order) :
    0 ≤ clientPts i o ∧ clientPts i o ≤ 100 := by
  unfold clientPts; split <;> norm_num

theorem sidePts_le (i : EmailInstruction) (o : Order) :
    0 ≤ sidePts i o ∧ sidePts i o ≤ 15 := by
  unfold sidePts; split <;> norm_num

theorem symbolPts_le (cfg : Config) (i : EmailInstruction) (o : Order) :
    0 ≤ symbolPts cfg i o ∧ symbolPts cfg i o ≤ 20 := by
  unfold symbolPts; split <;> norm_num

theorem quantityPts_le (i : EmailInstruction) (o : Order) :
    0 ≤ quantityPts i o ∧ quantityPts i o ≤ 25 := by
  unfold quantityPts
  cases impliedQty i o.price with
  | none => norm_num
  | some q => dsimp only; split <;> norm_num

theorem pricePts_le (i : EmailInstruction) (o : Order) :
    0 ≤ pricePts i o ∧ pricePts i o ≤ 20 := by
  unfold pricePts
  cases i.price with
  | cmp => norm_num
  | limit p => dsimp only; split <;> norm_num

theorem rawScore_bounds (cfg : Config) (i : EmailInstruction) (o : Order) :
    0 ≤ rawScore cfg i o ∧ rawScore cfg i o ≤ 180 := by
  unfold rawScore
  split
  · norm_num
  · have h1 := clientPts_le i o
    have h2 := sidePts_le i o
    have h3 := symbolPts_le cfg i o
    have h4 := quantityPts_le i o
    have h5 := pricePts_le i o
    constructor <;> linarith [h1.1, h1.2, h2.1, h2.2, h3.1, h3.2, h4.1, h4.2, h5.1, h5.2]

theorem confidence_bounds (cfg : Config) (i : EmailInstruction) (o : Order) :
    0 ≤ confidence cfg i o ∧ confidence cfg i o ≤ 100 := by
  have h := rawScore_bounds cfg i o
  unfold confidence
  constructor
  · apply div_nonneg _ (by norm_num)
    exact mul_nonneg h.1 (by norm_num)
  · rw [div_le_iff₀ (by norm_num : (0 : ℚ) < 180)]
    linarith [h.2]

/-- Claim C1, counterexample: at a fully matching instruction-order
pair the six rubric criteria carrying the claimed points (client 100,
side 15, symbol 20, quantity 25, price 20, time 20) sum to 200, not
180; a raw score of 200 under the claimed conversion raw over 180
times 100 exceeds the claimed bound of 100. -/
theorem C1_counterexample :
    clientPts c1xInstr c1xOrder + sidePts c1xInstr c1xOrder
      + symbolPts defaultConfig c1xInstr c1xOrder + quantityPts c1xInstr c1xOrder
      + pricePts c1xInstr c1xOrder + timePts (timeDelta c1xInstr c1xOrder) = 200
    ∧ ¬ ((200 : ℚ) * 100 / 180 ≤ 100) := by
  constructor
  · rw [show clientPts c1xInstr c1xOrder = 100 from rfl,
        show sidePts c1xInstr c1xOrder = 15 from rfl,
        show symbolPts defaultConfig c1xInstr c1xOrder = 20 from rfl,
        show quantityPts c1xInstr c1xOrder = 25 from rfl,
        show pricePts c1xInstr c1xOrder = 20 from rfl,
        show timeDelta c1xInstr c1xOrder = 30 from rfl,
        show timePts 30 = 20 from rfl]
    norm_num
  · norm_num

/-- Claim C1 (amended): for every instruction and order of the same
client on a matching day, the raw score is the gated sum of the five
additive rubric criteria (client 100, side 15, symbol 20, quantity 25,
price 20, totalling 180; time proximity serves the tie-break), the
confidence equals raw score over 180 times 100, and the confidence
always lies between 0 and 100. -/
theorem C1_rubric_confidence (cfg : Config) (i : EmailInstruction) (o : Order)
    (hclient : normClient i.clientId = normClient o.clientId) (hday : i.day = o.day) :
    (i.side = o.side →
      rawScore cfg i o =
        clientPts i o + sidePts i o + symbolPts cfg i o + quantityPts i o + pricePts i o)
    ∧ confidence cfg i o = rawScore cfg i o * 100 / 180
    ∧ 0 ≤ confidence cfg i o ∧ confidence cfg i o ≤ 100 := by
  refine ⟨?_, rfl, confidence_bounds cfg i o⟩
  intro hside
  have hc : clientPts i o = 100 := by unfold clientPts; rw [if_pos hclient]
  have hs : sidePts i o = 15 := by unfold sidePts; rw [if_pos hside]
  unfold rawScore
  rw [if_neg]
  rintro (h | h)
  · rw [hc] at h; norm_num at h
  · rw [hs] at h; norm_num at h

/-- Claim C1, witness: the perfect-match example has its confidence
inside the unit-percentage range. -/
theorem C1_witness :
    0 ≤ confidence defaultConfig c1xInstr c1xOrder
    ∧ confidence defaultConfig c1xInstr c1xOrder ≤ 100 :=
  ⟨(C1_rubric_confidence defaultConfig c1xInstr c1xOrder (by decide) (by decide)).2.2.1,
   (C1_rubric_confidence defaultConfig c1xInstr c1xOrder (by decide) (by decide)).2.2.2⟩

theorem filter_eq_nil_of_not_exists {α : Type} (l : List α) (p : α → Bool)
    (h : ¬ ∃ a ∈ l, p a = true) : l.filter p = [] := by
  cases hf : l.filter p with
  | nil => rfl
  | cons a t =>
    exfalso
    apply h
    have ha : a ∈ l.filter p := by rw [hf]; exact List.mem_cons_self a t
    exact ⟨a, (List.mem_filter.mp ha).1, (List.mem_filter.mp ha).2⟩

/-- Claim C2: the Audio Candidate Matcher emits a tight-window
candidate whenever some same-client, same-day call lies within five
minutes of the order timestamp (stage 1 dominating stage 2); it emits
a daily-fallback candidate, of strictly lower confidence than the
tight baseline, exactly when no tight-window call exists but some
same-client same-day call does; and with no same-client same-day call
it emits nothing. -/
theorem C2_audio_two_stage (calls : List CallCandidate) (o : Order) :
    ((∃ c ∈ calls, sameClientDayB c o = true ∧ tightB c o = true) →
      ∃ a, audioMatchOrder calls o = some a ∧ a.tag = AudioTag.matched_in_time_range ∧
        a.confidence = tightConfidenceBaseline)
    ∧ ((¬ ∃ c ∈ calls, sameClientDayB c o = true ∧ tightB c o = true) →
        (∃ c ∈ calls, sameClientDayB c o = true) →
        ∃ a, audioMatchOrder calls o = some a ∧ a.tag = AudioTag.matched_daily_fallback ∧
          a.confidence = fallbackConfidenceBaseline ∧
          a.confidence < tightConfidenceBaseline)
    ∧ ((¬ ∃ c ∈ calls, sameClientDayB c o = true) → audioMatchOrder calls o = none) := by
  refine ⟨?_, ?_, ?_⟩
  · rintro ⟨c, hc, h1, h2⟩
    have hmem : c ∈ calls.filter (fun c => sameClientDayB c o && tightB c o) :=
      List.mem_filter.mpr ⟨hc, by rw [h1, h2]; rfl⟩
    cases hfil : calls.filter (fun c => sameClientDayB c o && tightB c o) with
    | nil => rw [hfil] at hmem; exact absurd hmem (List.not_mem_nil c)
    | cons a t =>
      exact ⟨{ call := a, tag := AudioTag.matched_in_time_range,
               confidence := tightConfidenceBaseline },
             by unfold audioMatchOrder; rw [hfil], rfl, rfl⟩
  · intro hno hsome
    have hfil1 : calls.filter (fun c => sameClientDayB c o && tightB c o) = [] := by
      apply filter_eq_nil_of_not_exists
      rintro ⟨c, hc, hp⟩
      exact hno ⟨c, hc, Bool.and_eq_true_iff.mp hp⟩
    obtain ⟨c, hc, h1⟩ := hsome
    have hmem2 : c ∈ calls.filter (fun c => sameClientDayB c o) :=
      List.mem_filter.mpr ⟨hc, h1⟩
    cases hfil2 : calls.filter (fun c => sameClientDayB c o) with
    | nil => rw [hfil2] at hmem2; exact absurd hmem2 (List.not_mem_nil c)
    | cons a t =>
      refine ⟨{ call := a, tag := AudioTag.matched_daily_fallback,
                confidence := fallbackConfidenceBaseline },
              by unfold audioMatchOrder; rw [hfil1, hfil2], rfl, rfl, ?_⟩
      show fallbackConfidenceBaseline < tightConfidenceBaseline
      norm_num [fallbackConfidenceBaseline, tightConfidenceBaseline]
  · intro hno
    have hfil1 : calls.filter (fun c => sameClientDayB c o && tightB c o) = [] := by
      apply filter_eq_nil_of_not_exists
      rintro ⟨c, hc, hp⟩
      exact hno ⟨c, hc, (Bool.and_eq_true_iff.mp hp).1⟩
    have hfil2 : calls.filter (fun c => sameClientDayB c o) = [] := by
      apply filter_eq_nil_of_not_exists
      rintro ⟨c, hc, hp⟩
      exact hno ⟨c, hc, hp⟩
    unfold audioMatchOrder
    rw [hfil1, hfil2]

/-- Claim C2, witness: a call at 998 to 1002 matches the order at 1000
in the tight window, and a morning call at 600 matches the afternoon
order at 1400 only through the daily fallback, at strictly lower
confidence. -/
theorem C2_witness :
    (∃ a, audioMatchOrder [c2CallTight] c2Order = some a ∧
      a.tag = AudioTag.matched_in_time_range ∧ a.confidence = tightConfidenceBaseline)
    ∧ (∃ a, audioMatchOrder [c2CallMorning] c2OrderLate = some a ∧
      a.tag = AudioTag.matched_daily_fallback ∧ a.confidence = fallbackConfidenceBaseline ∧
      a.confidence < tightConfidenceBaseline) :=
  ⟨(C2_audio_two_stage [c2CallTight] c2Order).1 (by decide),
   (C2_audio_two_stage [c2CallMorning] c2OrderLate).2.1 (by decide) (by decide)⟩

theorem qtyDiscs_no_price (cfg : Config) (i : EmailInstruction) (o : Order) :
    (qtyDiscs cfg i o).filter (fun d => decide (d.kind = DiscKind.price)) = [] := by
  unfold qtyDiscs
  cases impliedQty i o.price with
  | none => rfl
  | some q =>
    dsimp only
    split
    · rfl
    · split <;> rfl

theorem symDiscs_no_price (cfg : Config) (i : EmailInstruction) (o : Order) :
    (symDiscs cfg i o).filter (fun d => decide (d.kind = DiscKind.price)) = [] := by
  unfold symDiscs; split <;> rfl

theorem statusDiscs_no_price (o : Order) :
    (statusDiscs o).filter (fun d => decide (d.kind = DiscKind.price)) = [] := by
  unfold statusDiscs; split <;> rfl

/-- Claim C3: a CMP-priced instruction never fails the price
criterion (full 20 points against any executed price) and the emitted
match candidate carries exactly one price discrepancy, tagged
informational: the sentinel is neither silently accepted nor a hard
rejection. -/
theorem C3_cmp_never_fails (cfg : Config) (i : EmailInstruction) (o : Order)
    (h : i.price = PriceSpec.cmp) :
    pricePts i o = 20
    ∧ ∃ d, (singleCandidate cfg i o).discrepancies.filter
        (fun d => decide (d.kind = DiscKind.price)) = [d]
      ∧ d.informational = true ∧ d.kind = DiscKind.price := by
  constructor
  · unfold pricePts; rw [h]
  · refine ⟨cmpNote o, ?_, rfl, rfl⟩
    show (discrepanciesFor cfg i o).filter (fun d => decide (d.kind = DiscKind.price)) = [cmpNote o]
    unfold discrepanciesFor
    rw [List.filter_append, List.filter_append, List.filter_append,
        qtyDiscs_no_price, symDiscs_no_price, statusDiscs_no_price]
    simp only [List.append_nil]
    unfold priceDiscs
    rw [h]
    rfl

/-- Claim C3, witness: the CMP instruction against the order executed
at 1850 keeps full price points and carries exactly one informational
price note. -/
theorem C3_witness :
    pricePts c3Instr c3Order = 20
    ∧ ∃ d, (singleCandidate defaultConfig c3Instr c3Order).discrepancies.filter
        (fun d => decide (d.kind = DiscKind.price)) = [d]
      ∧ d.informational = true ∧ d.kind = DiscKind.price :=
  C3_cmp_never_fails defaultConfig c3Instr c3Order rfl

/-- Claim C4: requires_audit holds exactly when the order executed
successfully and either no evidence was chosen or the chosen evidence
carries a critical-severity discrepancy; a cancelled or rejected order
with no evidence is never flagged. -/
theorem C4_requires_audit (o : Order) (ch : Chosen) :
    (requiresAudit o ch = true ↔
      (o.status = ExecStatus.complete ∧
        (evidenceOf ch = none ∨ ∃ c, evidenceOf ch = some c ∧ hasCriticalB c = true)))
    ∧ ((o.status = ExecStatus.cancelled ∨ o.status = ExecStatus.rejected) →
        requiresAudit o Chosen.noEvidence = false) := by
  constructor
  · unfold requiresAudit
    cases hev : evidenceOf ch with
    | none => simp [hev]
    | some c => simp [hev]
  · rintro (h | h) <;> (unfold requiresAudit evidenceOf; rw [h]; rfl)

/-- Claim C4, witness: a cancelled order with no evidence has
requires_audit false. -/
theorem C4_witness : requiresAudit c4Order Chosen.noEvidence = false :=
  (C4_requires_audit c4Order Chosen.noEvidence).2 (Or.inl rfl)

/-- Claim C5: with both channels present the Aggregator selects the
higher-confidence candidate, and on an exact tie it selects the email
candidate. -/
theorem C5_precedence (x y : BestCand) :
    (x.confidence ≤ y.confidence → aggregate (some x) (some y) = Chosen.email y)
    ∧ (y.confidence < x.confidence → aggregate (some x) (some y) = Chosen.audio x)
    ∧ (x.confidence = y.confidence → aggregate (some x) (some y) = Chosen.email y) := by
  refine ⟨?_, ?_, ?_⟩
  · intro h
    show (if x.confidence > y.confidence then Chosen.audio x else Chosen.email y) = Chosen.email y
    rw [if_neg (not_lt.mpr h)]
  · intro h
    show (if x.confidence > y.confidence then Chosen.audio x else Chosen.email y) = Chosen.audio x
    rw [if_pos h]
  · intro h
    show (if x.confidence > y.confidence then Chosen.audio x else Chosen.email y) = Chosen.email y
    rw [if_neg (by rw [h]; exact lt_irrefl _)]

/-- Claim C5, witness: audio at confidence 70 against email at
confidence 90 selects the email candidate. -/
theorem C5_witness :
    aggregate (some { confidence := 70, discrepancies := [] })
      (some { confidence := 90, discrepancies := [] }) =
      Chosen.email { confidence := 90, discrepancies := [] } :=
  (C5_precedence { confidence := 70, discrepancies := [] }
    { confidence := 90, discrepancies := [] }).1 (by norm_num)

theorem pickBetter_cases (cfg : Config) (i : EmailInstruction) (a b : Order) :
    pickBetter cfg i a b = a ∨ pickBetter cfg i a b = b := by
  unfold pickBetter
  split
  · exact Or.inr rfl
  · split
    · exact Or.inl rfl
    · split
      · exact Or.inr rfl
      · split
        · exact Or.inl rfl
        · split
          · exact Or.inl rfl
          · exact Or.inr rfl

theorem foldl_pickBetter_mem (cfg : Config) (i : EmailInstruction) :
    ∀ (l : List Order) (a : Order),
      l.foldl (pickBetter cfg i) a = a ∨ l.foldl (pickBetter cfg i) a ∈ l := by
  intro l
  induction l with
  | nil => intro a; exact Or.inl rfl
  | cons b t ih =>
    intro a
    rw [List.foldl_cons]
    rcases ih (pickBetter cfg i a b) with h | h
    · rcases pickBetter_cases cfg i a b with h2 | h2
      · exact Or.inl (h.trans h2)
      · refine Or.inr ?_
        rw [h, h2]
        exact List.mem_cons_self b t
    · exact Or.inr (List.mem_cons_of_mem b h)

theorem bestOrder_mem (cfg : Config) (i : EmailInstruction) (l : List Order) (o : Order)
    (h : bestOrder cfg i l = some o) : o ∈ l := by
  cases l with
  | nil => simp [bestOrder] at h
  | cons a t =>
    have h2 : t.foldl (pickBetter cfg i) a = o := by
      have := h
      unfold bestOrder at this
      exact Option.some.inj this
    rcases foldl_pickBetter_mem cfg i t a with h3 | h3
    · rw [h2] at h3
      rw [h3]
      exact List.mem_cons_self a t
    · rw [h2] at h3
      exact List.mem_cons_of_mem a h3

/-- Claim C6: when no single order reaches the acceptance threshold
for an instruction but the same-client, same-day, same-symbol,
same-side group satisfies the split-execution tolerances (total
quantity within tolerance of the instructed or implied quantity,
quantity-weighted average price within tolerance of the instructed
price), the matcher emits exactly one candidate, of type
split_execution, covering the whole group, with confidence computed by
substituting the aggregate quantity and price into the rubric. -/
theorem C6_split_execution (cfg : Config) (i : EmailInstruction) (orders : List Order)
    (hsingle : ∀ o ∈ orders, confidence cfg i o < cfg.acceptThreshold)
    (hsplit : splitCheckB cfg i (splitGroup cfg i orders) = true) :
    emailMatchInstruction cfg i orders =
      InstructionResult.matched (splitCandidate cfg i (splitGroup cfg i orders))
    ∧ (splitCandidate cfg i (splitGroup cfg i orders)).mtype = MatchType.split_execution
    ∧ (splitCandidate cfg i (splitGroup cfg i orders)).confidence =
        aggConfidence cfg i (splitGroup cfg i orders) := by
  refine ⟨?_, rfl, rfl⟩
  unfold emailMatchInstruction
  cases hb : bestOrder cfg i (orders.filter (fun o => decide (i.day = o.day))) with
  | none =>
    show emailSplitStage cfg i orders = _
    unfold emailSplitStage
    rw [if_pos hsplit]
  | some o =>
    have hmem := bestOrder_mem cfg i _ o hb
    have ho : o ∈ orders := (List.mem_filter.mp hmem).1
    show (if cfg.acceptThreshold ≤ confidence cfg i o then
        InstructionResult.matched (singleCandidate cfg i o)
      else emailSplitStage cfg i orders) = _
    rw [if_neg (not_le.mpr (hsingle o ho))]
    unfold emailSplitStage
    rw [if_pos hsplit]

/-- Claim C6, witness: the instruction for 100000 at 500 against the
two orders 40000 at 500 and 60000 at 500 of the same client, symbol,
side and day: neither single order is acceptable, the pair qualifies
as a split execution, and the aggregate rubric yields confidence
100. -/
theorem C6_witness :
    emailMatchInstruction defaultConfig c6Instr [c6Order1, c6Order2] =
      InstructionResult.matched
        (splitCandidate defaultConfig c6Instr (splitGroup defaultConfig c6Instr [c6Order1, c6Order2]))
    ∧ (splitCandidate defaultConfig c6Instr (splitGroup defaultConfig c6Instr [c6Order1, c6Order2])).confidence = 100 := by
  have hgroup : splitGroup defaultConfig c6Instr [c6Order1, c6Order2] = [c6Order1, c6Order2] := rfl
  have hr1 : rawScore defaultConfig c6Instr c6Order1 = 155 := by
    unfold rawScore
    rw [if_neg]
    · rw [show clientPts c6Instr c6Order1 = 100 from rfl,
          show sidePts c6Instr c6Order1 = 15 from rfl,
          show symbolPts defaultConfig c6Instr c6Order1 = 20 from rfl,
          show quantityPts c6Instr c6Order1 = 0 from rfl,
          show pricePts c6Instr c6Order1 = 20 from rfl]
      norm_num
    · rintro (h | h)
      · rw [show clientPts c6Instr c6Order1 = 100 from rfl] at h; norm_num at h
      · rw [show sidePts c6Instr c6Order1 = 15 from rfl] at h; norm_num at h
  have hr2 : rawScore defaultConfig c6Instr c6Order2 = 155 := by
    unfold rawScore
    rw [if_neg]
    · rw [show clientPts c6Instr c6Order2 = 100 from rfl,
          show sidePts c6Instr c6Order2 = 15 from rfl,
          show symbolPts defaultConfig c6Instr c6Order2 = 20 from rfl,
          show quantityPts c6Instr c6Order2 = 0 from rfl,
          show pricePts c6Instr c6Order2 = 20 from rfl]
      norm_num
    · rintro (h | h)
      · rw [show clientPts c6Instr c6Order2 = 100 from rfl] at h; norm_num at h
      · rw [show sidePts c6Instr c6Order2 = 15 from rfl] at h; norm_num at h
  have hsingle : ∀ o ∈ [c6Order1, c6Order2],
      confidence defaultConfig c6Instr o < defaultConfig.acceptThreshold := by
    intro o ho
    have hthr : defaultConfig.acceptThreshold = 87 := rfl
    rcases List.mem_cons.mp ho with h | h
    · rw [h, hthr]
      unfold confidence
      rw [hr1]
      norm_num
    · rw [List.mem_singleton.mp h, hthr]
      unfold confidence
      rw [hr2]
      norm_num
  have htot : totQty [c6Order1, c6Order2] = 100000 := rfl
  have hwavg : wavgPrice [c6Order1, c6Order2] = 500 := by
    unfold wavgPrice
    rw [if_neg (by rw [htot]; norm_num)]
    rw [htot]
    rw [show sumPx [c6Order1, c6Order2] = 0 + (40000 : ℚ) * 500 + (60000 : ℚ) * 500 by
      unfold sumPx
      norm_num [c6Order1, c6Order2]]
    norm_num
  have hsplit : splitCheckB defaultConfig c6Instr (splitGroup defaultConfig c6Instr [c6Order1, c6Order2]) = true := by
    rw [hgroup]
    unfold splitCheckB
    rw [show splitQtyTarget c6Instr [c6Order1, c6Order2] = some 100000 from rfl]
    rw [show c6Instr.price = PriceSpec.limit 500 from rfl]
    dsimp only
    simp only [Bool.and_eq_true, decide_eq_true_eq]
    refine ⟨⟨?_, ?_⟩, ?_⟩
    · simp
    · rw [htot, show defaultConfig.qtyTol = 2 from rfl]
      norm_num
    · rw [hwavg, show defaultConfig.priceTol = 2 from rfl]
      norm_num
  have h := C6_split_execution defaultConfig c6Instr [c6Order1, c6Order2] hsingle hsplit
  refine ⟨h.1, ?_⟩
  rw [h.2.2]
  unfold aggConfidence
  rw [hgroup]
  unfold aggOrder
  dsimp only
  rw [htot, hwavg]
  show confidence defaultConfig c6Instr c6Agg = 100
  unfold confidence rawScore
  rw [if_neg]
  · rw [show clientPts c6Instr c6Agg = 100 from rfl,
        show sidePts c6Instr c6Agg = 15 from rfl,
        show symbolPts defaultConfig c6Instr c6Agg = 20 from rfl,
        show quantityPts c6Instr c6Agg = 25 from rfl,
        show pricePts c6Instr c6Agg = 20 from rfl]
    norm_num
  · rintro (h2 | h2)
    · rw [show clientPts c6Instr c6Agg = 100 from rfl] at h2
      norm_num at h2
    · rw [show sidePts c6Instr c6Agg = 15 from rfl] at h2
      norm_num at h2

/-- Claim C7: an instruction failing the mandatory client-code or
side criterion against every order scores 0 against each of them and
is recorded as unmatched with an explicit, non-empty reason: it is
never silently dropped. -/
theorem C7_mandatory_unmatched (cfg : Config) (i : EmailInstruction) (orders : List Order)
    (hthr : 0 < cfg.acceptThreshold)
    (hfail : ∀ o ∈ orders, clientPts i o = 0 ∨ sidePts i o = 0) :
    (∀ o ∈ orders, rawScore cfg i o = 0)
    ∧ emailMatchInstruction cfg i orders = InstructionResult.unmatched (unmatchedReason i orders)
    ∧ unmatchedReason i orders ≠ "" := by
  have hraw : ∀ o ∈ orders, rawScore cfg i o = 0 := by
    intro o ho
    unfold rawScore
    rw [if_pos (hfail o ho)]
  refine ⟨hraw, ?_, ?_⟩
  · have hg : splitGroup cfg i orders = [] := by
      apply filter_eq_nil_of_not_exists
      rintro ⟨o, ho, hp⟩
      have hp2 := Bool.and_eq_true_iff.mp hp
      have hp3 := Bool.and_eq_true_iff.mp hp2.1
      have hp4 := Bool.and_eq_true_iff.mp hp3.1
      have hcl : normClient i.clientId = normClient o.clientId := of_decide_eq_true hp4.1
      have hsd : i.side = o.side := of_decide_eq_true hp3.2
      rcases hfail o ho with h | h
      · unfold clientPts at h
        rw [if_pos hcl] at h
        norm_num at h
      · unfold sidePts at h
        rw [if_pos hsd] at h
        norm_num at h
    unfold emailMatchInstruction
    cases hb : bestOrder cfg i (orders.filter (fun o => decide (i.day = o.day))) with
    | none =>
      show emailSplitStage cfg i orders = _
      unfold emailSplitStage
      rw [hg]
      rfl
    | some o =>
      have hmem := bestOrder_mem cfg i _ o hb
      have ho : o ∈ orders := (List.mem_filter.mp hmem).1
      have hc0 : confidence cfg i o = 0 := by
        unfold confidence
        rw [hraw o ho]
        norm_num
      show (if cfg.acceptThreshold ≤ confidence cfg i o then
          InstructionResult.matched (singleCandidate cfg i o)
        else emailSplitStage cfg i orders) = _
      rw [if_neg (by rw [hc0]; exact not_le.mpr hthr)]
      unfold emailSplitStage
      rw [hg]
      rfl
  · unfold unmatchedReason
    split <;> decide

/-- Claim C7, witness: the instruction of client NEOC9 against a book
holding only a NEOC8 order scores 0 and is recorded as unmatched with
a non-empty reason. -/
theorem C7_witness :
    emailMatchInstruction defaultConfig c7Instr [c7Order] =
      InstructionResult.unmatched (unmatchedReason c7Instr [c7Order])
    ∧ unmatchedReason c7Instr [c7Order] ≠ "" :=
  ⟨(C7_mandatory_unmatched defaultConfig c7Instr [c7Order] (by norm_num [defaultConfig])
      (by intro o ho; rw [List.mem_singleton.mp ho]; exact Or.inl rfl)).2.1,
   (C7_mandatory_unmatched defaultConfig c7Instr [c7Order] (by norm_num [defaultConfig])
      (by intro o ho; rw [List.mem_singleton.mp ho]; exact Or.inl rfl)).2.2⟩

/-- Claim C9: the engine is a pure function of its structured inputs:
two runs on identical inputs produce identical reconciliation
records; no randomness and no wall clock enter the computation. -/
theorem C9_deterministic (cfg : Config) (a b : EngineInput) (h : a = b) :
    runEngine cfg a = runEngine cfg b := by
  rw [h]

/-- Claim C9, witness: re-running the engine on the sample input
reproduces the same records. -/
theorem C9_witness : runEngine defaultConfig c9Input = runEngine defaultConfig c9Input :=
  C9_deterministic defaultConfig c9Input c9Input rfl

theorem pyTruncNat_trunc (m : Nat) (e : Int) :
    (pyTruncNat m e : ℚ) ≤ finiteMag m e ∧ finiteMag m e < (pyTruncNat m e : ℚ) + 1 := by
  unfold pyTruncNat finiteMag
  by_cases he : 0 ≤ e
  · rw [if_pos he]
    rw [show (2 : ℚ) ^ e = (2 : ℚ) ^ (e.toNat : ℤ) from by rw [Int.toNat_of_nonneg he]]
    rw [zpow_natCast]
    constructor
    · push_cast
      exact le_refl _
    · push_cast
      linarith
  · rw [if_neg he]
    obtain ⟨k, rfl⟩ : ∃ k : ℕ, e = -(k : ℤ) :=
      ⟨(-e).toNat, by omega⟩
    rw [zpow_neg, zpow_natCast]
    have htn : (-(-(k : ℤ))).toNat = k := by omega
    rw [htn]
    have hpos : (0 : ℚ) < (2 : ℚ) ^ k := by positivity
    have hmod : m % 2 ^ k < 2 ^ k := Nat.mod_lt m (by positivity)
    have hlt : m < (m / 2 ^ k + 1) * 2 ^ k := by
      calc m = 2 ^ k * (m / 2 ^ k) + m % 2 ^ k := (Nat.div_add_mod m (2 ^ k)).symm
        _ < 2 ^ k * (m / 2 ^ k) + 2 ^ k := Nat.add_lt_add_left hmod _
        _ = (m / 2 ^ k + 1) * 2 ^ k := by ring
    have hmul : (m / 2 ^ k) * 2 ^ k ≤ m := Nat.div_mul_le_self m (2 ^ k)
    rw [show (m : ℚ) * ((2 : ℚ) ^ k)⁻¹ = (m : ℚ) / (2 : ℚ) ^ k from by ring]
    constructor
    · rw [le_div_iff₀ hpos]
      exact_mod_cast hmul
    · rw [div_lt_iff₀ hpos]
      exact_mod_cast hlt

set_option maxRecDepth 8000 in
/-- Claim C8, counterexample: the normalizer transcribed from the
source does not behave as claimed.  It does not pass unparseable
strings through unchanged: abc.0 loses its trailing two characters.
It truncates: 12.7 parses to the double 7149464408450662 times 2 to
the minus 49, whose value is not 12, yet the result is 12.  It raises:
inf and the overflowing literal 1e400 parse to an infinite float, and
int() then raises an OverflowError the except clause does not catch
(result none).  And it rounds through binary64 before truncating: the
integer literal 9007199254740993 normalizes to 9007199254740992, and
0.99999999999999999 normalizes upward to 1. -/
theorem C8_counterexample :
    (pyFloat "abc.0" = none
      ∧ normalize_order_id_for_preservation "abc.0" = some "abc"
      ∧ ("abc" : String) ≠ "abc.0")
    ∧ (normalize_order_id_for_preservation "12.7" = some "12"
      ∧ pyFloat "12.7" = some (PyFloat.finite false 7149464408450662 (-49))
      ∧ ¬ ((12 : ℚ) = finiteMag 7149464408450662 (-49)))
    ∧ normalize_order_id_for_preservation "inf" = none
    ∧ normalize_order_id_for_preservation "1e400" = none
    ∧ (normalize_order_id_for_preservation "9007199254740993" = some "9007199254740992"
      ∧ ("9007199254740992" : String) ≠ "9007199254740993")
    ∧ normalize_order_id_for_preservation "0.99999999999999999" = some "1" := by
  refine ⟨⟨?_, ?_, ?_⟩, ⟨?_, ?_, ?_⟩, ?_, ?_, ⟨?_, ?_⟩, ?_⟩
  · decide
  · decide
  · decide
  · decide
  · decide
  · unfold finiteMag
    rw [show ((-49 : ℤ)) = -((49 : ℕ) : ℤ) from rfl, zpow_neg, zpow_natCast]
    rw [show ((7149464408450662 : ℕ) : ℚ) * ((2 : ℚ) ^ (49 : ℕ))⁻¹ =
        (7149464408450662 : ℚ) / (2 : ℚ) ^ (49 : ℕ) from by push_cast; ring]
    rw [eq_div_iff (by positivity)]
    norm_num
  · decide
  · decide
  · decide
  · decide
  · decide

/-- Claim C8 (amended): when the string parses to an infinite float
(inf, or an overflowing literal such as 1e400) normalization raises an
uncaught OverflowError; when it parses to a finite float, the nearest
binary64 to the literal's value, the result is the decimal string of
that float truncated toward zero (between the magnitude and one below
it), exact only when the float's value is an integer; when parsing
fails, or the float is NaN, the ValueError is caught and the input is
returned unchanged unless it ends in dot zero, in which case the last
two characters are stripped. -/
theorem C8_normalize_total (s : String) :
    (pyFloat s = none →
      normalize_order_id_for_preservation s =
        some (if strEndsWithDotZero s then stripDotZero s else s))
    ∧ (pyFloat s = some PyFloat.nan →
      normalize_order_id_for_preservation s =
        some (if strEndsWithDotZero s then stripDotZero s else s))
    ∧ (∀ b, pyFloat s = some (PyFloat.inf b) →
      normalize_order_id_for_preservation s = none)
    ∧ (∀ b m e, pyFloat s = some (PyFloat.finite b m e) →
      normalize_order_id_for_preservation s =
        some (toString (if b then -(pyTruncNat m e : Int) else (pyTruncNat m e : Int)))
      ∧ ((pyTruncNat m e : ℚ) ≤ finiteMag m e
          ∧ finiteMag m e < (pyTruncNat m e : ℚ) + 1)) := by
  refine ⟨?_, ?_, ?_, ?_⟩
  · intro h
    unfold normalize_order_id_for_preservation
    rw [h]
  · intro h
    unfold normalize_order_id_for_preservation
    rw [h]
  · intro b h
    unfold normalize_order_id_for_preservation
    rw [h]
  · intro b m e h
    refine ⟨?_, ?_⟩
    · unfold normalize_order_id_for_preservation
      rw [h]
    · exact pyTruncNat_trunc m e

/-- Claim C8, witness: the scientific-notation identifier 2.509e13 of
the documentation parses to the exactly representable double
6423040000000000 times 2 to the minus 8 and normalizes to its exact
integer-string 25090000000000; the underscored and padded literal
1_0.0, which float() also accepts, normalizes to 10. -/
theorem C8_witness :
    normalize_order_id_for_preservation "2.509e13" = some "25090000000000"
    ∧ ((pyTruncNat 6423040000000000 (-8) : ℚ) ≤ finiteMag 6423040000000000 (-8)
        ∧ finiteMag 6423040000000000 (-8) < (pyTruncNat 6423040000000000 (-8) : ℚ) + 1)
    ∧ normalize_order_id_for_preservation " 1_0.0 " = some "10" := by
  have h := (C8_normalize_total "2.509e13").2.2.2 false 6423040000000000 (-8) (by decide)
  exact ⟨h.1.trans (by decide), h.2, by decide⟩

theorem restore_eq_pres : normalize_order_id_for_restore = normalize_order_id_for_preservation :=
  rfl

theorem map3_preserve (φ : String → String) (m : String → Option String)
    (rows : List AnalysisRow) (j : Nat) (r : AnalysisRow)
    (h : rows.get? j = some r) (hs : r.emailStatus = "OMS_MATCH") :
    ∃ r2,
      (((rows.map (fun r => { r with emailStatus := "No Email Match" })).map (fun r =>
          match m (φ r.orderId) with
          | some v => { r with emailStatus := v }
          | none => r)).map (fun r =>
          if φ r.orderId ∈
              (rows.filter (fun r => r.emailStatus == "OMS_MATCH")).map (fun r => φ r.orderId) then
            { r with emailStatus := "OMS_MATCH" }
          else r)).get? j = some r2 ∧ r2.emailStatus = "OMS_MATCH" := by
  have hmemr : r ∈ rows := List.get?_mem h
  have hmemf : r ∈ rows.filter (fun r => r.emailStatus == "OMS_MATCH") :=
    List.mem_filter.mpr ⟨hmemr, by rw [hs]; rfl⟩
  have hid : φ r.orderId ∈
      (rows.filter (fun r => r.emailStatus == "OMS_MATCH")).map (fun r => φ r.orderId) :=
    List.mem_map_of_mem (fun r => φ r.orderId) hmemf
  rw [List.get?_map, List.get?_map, List.get?_map, h]
  dsimp only [Option.map_some']
  cases hm : m (φ r.orderId) with
  | none =>
    dsimp only
    rw [if_pos hid]
    exact ⟨_, rfl, rfl⟩
  | some v =>
    dsimp only
    rw [if_pos hid]
    exact ⟨_, rfl, rfl⟩

theorem arc_preserves (m : String → Option String) (rows : List AnalysisRow) (j : Nat)
    (r : AnalysisRow) (h : rows.get? j = some r) (hs : r.emailStatus = "OMS_MATCH") :
    ∃ r2, (addRequiredColumnsStatus m rows).get? j = some r2 ∧ r2.emailStatus = "OMS_MATCH" := by
  have hgen := map3_preserve
    (fun v => (normalize_order_id_for_preservation v).getD v) m rows j r h hs
  simp only [addRequiredColumnsStatus, restoreOms, applyOmsMatches, applyDefaults,
    preservedOmsIds, restore_eq_pres]
  exact hgen

/-- Claim C10: a row of the source analysis data already carrying the
OMS_MATCH status still carries OMS_MATCH after the final-report
column-mapping step, and still does after the step is run again: the
No Email Match default never erases a pre-existing OMS match. -/
theorem C10_oms_match_preserved (m : String → Option String) (rows : List AnalysisRow)
    (j : Nat) (r : AnalysisRow) (h : rows.get? j = some r)
    (hs : r.emailStatus = "OMS_MATCH") :
    (∃ r2, (addRequiredColumnsStatus m rows).get? j = some r2 ∧ r2.emailStatus = "OMS_MATCH")
    ∧ (∃ r3, (addRequiredColumnsStatus m (addRequiredColumnsStatus m rows)).get? j = some r3
        ∧ r3.emailStatus = "OMS_MATCH") := by
  obtain ⟨r2, h2, hs2⟩ := arc_preserves m rows j r h hs
  exact ⟨⟨r2, h2, hs2⟩, arc_preserves m (addRequiredColumnsStatus m rows) j r2 h2 hs2⟩

/-- Claim C10, witness: the row with order identifier 2.509e13 and
status OMS_MATCH keeps the status through one and through two runs of
the step with an empty OMS-matches mapping. -/
theorem C10_witness :
    (∃ r2, (addRequiredColumnsStatus (fun _ => none) [c10Row]).get? 0 = some r2
      ∧ r2.emailStatus = "OMS_MATCH")
    ∧ (∃ r3, (addRequiredColumnsStatus (fun _ => none)
        (addRequiredColumnsStatus (fun _ => none) [c10Row])).get? 0 = some r3
      ∧ r3.emailStatus = "OMS_MATCH") :=
  C10_oms_match_preserved (fun _ => none) [c10Row] 0 c10Row rfl rfl

end TradeSurveillance
